import Mathlib

/-!
Verification development for the rohas event-dispatch core.

The definitions below are a shallow embedding of the Python source:
* `src/examples/hello-world/src/generated/state.py` (`TriggeredEvent`,
  `Logger`, `State`),
* `src/examples/ecommerce-order-system/src/handlers/events/update_order_payment_status.py`,
* `src/crates/rohas-orm/rohas_orm/utils.py` (`sanitize_sql_value`).

The Dispatcher, Router and Handler Registry are not present in the
repository sources; where a claim depends on them they are modelled from
the specification text, and each such definition says so in its doc
comment.
-/

namespace Rohas

/-- A Python value as it appears in event payloads.  `vnone` is the Python
value `None`; `vfloat` carries the string that Python `str()` would print for the
float, since the sources only ever stringify floats. -/
inductive PyVal where
  | vnone : PyVal
  | vstr : String → PyVal
  | vint : Int → PyVal
  | vbool : Bool → PyVal
  | vfloat : String → PyVal
  deriving DecidableEq, Repr

/-- A Python `Dict[str, Any]` payload, as an insertion-ordered association
list (CPython dicts preserve insertion order). -/
abbrev Payload : Type := List (String × PyVal)

/-- `d.get(k)` on a Python dict: the value at the first (unique) entry for
`k`, `None`-as-absent modelled by `Option`. -/
def dictGet (d : Payload) (k : String) : Option PyVal :=
  (d.find? (fun e => e.1 == k)).map (fun e => e.2)

/-- `d[k] = v` on a Python dict: if `k` is present its value is replaced in
place (keeping its original position), otherwise the entry is appended. -/
def dictAssign {α : Type} (d : List (String × α)) (k : String) (v : α) : List (String × α) :=
  if d.any (fun e => e.1 == k) then
    d.map (fun e => if e.1 == k then (k, v) else e)
  else
    d ++ [(k, v)]

/-- `TriggeredEvent` from `generated/state.py`: a pydantic model with an
event name and a payload. -/
structure TriggeredEvent where
  event_name : String
  payload : Payload
  deriving DecidableEq, Repr

/-- A structured log record as passed to the log sink by `Logger`:
level string, handler name, message, keyword fields. -/
structure LogRecord where
  level : String
  handler_name : String
  message : String
  fields : Payload
  deriving DecidableEq, Repr

/-- `Logger` from `generated/state.py`.  `log_fn` is an external callback;
we model only whether one is installed (`Logger._log_fn` truthiness) —
when absent every logging method is a no-op. -/
structure Logger where
  handler_name : String
  has_log_fn : Bool
  deriving DecidableEq, Repr

/-- `State` from `generated/state.py`: the per-invocation emission
context.  `_auto_trigger_payloads` is a Python dict, modelled as an
insertion-ordered association list. -/
structure State where
  triggers : List TriggeredEvent
  auto_trigger_payloads : List (String × Payload)
  logger : Logger
  deriving DecidableEq, Repr

/-- `State.__init__`: fresh trigger list, fresh payload dict, a logger
with the given handler name and callback. -/
def State.new (handler_name : String) (has_log_fn : Bool) : State :=
  { triggers := []
    auto_trigger_payloads := []
    logger := { handler_name := handler_name, has_log_fn := has_log_fn } }

/-- `State.trigger_event`: append a `TriggeredEvent` to `_triggers`. -/
def State.trigger_event (s : State) (event_name : String) (payload : Payload) : State :=
  { s with triggers := s.triggers ++ [{ event_name := event_name, payload := payload }] }

/-- `State.set_payload`: store the payload in `_auto_trigger_payloads`
under the event name (Python dict assignment). -/
def State.set_payload (s : State) (event_name : String) (payload : Payload) : State :=
  { s with auto_trigger_payloads := dictAssign s.auto_trigger_payloads event_name payload }

/-- `State.get_triggers`: the list of manually triggered events (the
source returns a copy; with value semantics the copy is the value). -/
def State.get_triggers (s : State) : List TriggeredEvent :=
  s.triggers

/-- `State.get_auto_trigger_payload`: `dict.get` on the buffered payloads. -/
def State.get_auto_trigger_payload (s : State) (event_name : String) : Option Payload :=
  (s.auto_trigger_payloads.find? (fun e => e.1 == event_name)).map (fun e => e.2)

/-- `State.get_all_auto_trigger_payloads`: the buffered payload dict (the
source returns a copy; with value semantics the copy is the value). -/
def State.get_all_auto_trigger_payloads (s : State) : List (String × Payload) :=
  s.auto_trigger_payloads

/-- Apply a sequence of `set_payload` calls in order. -/
def State.applySetPayloads (s : State) (calls : List (String × Payload)) : State :=
  calls.foldl (fun st c => st.set_payload c.1 c.2) s

/-- Apply a sequence of `trigger_event` calls in order. -/
def State.applyTriggerEvents (s : State) (calls : List (String × Payload)) : State :=
  calls.foldl (fun st c => st.trigger_event c.1 c.2) s

/-! ### Dispatcher drain step (spec-modelled) -/

/-- Handler invocation terminal states, from spec §4.5:
`scheduled → running → (succeeded, failed, timed_out)`. -/
inductive InvocationOutcome where
  | succeeded : InvocationOutcome
  | failed : InvocationOutcome
  | timed_out : InvocationOutcome
  deriving DecidableEq, Repr

/-- The buffered declared payloads of a state, as events (one per entry,
in dict insertion order). -/
def declaredEventsOf (s : State) : List TriggeredEvent :=
  s.get_all_auto_trigger_payloads.map (fun e => { event_name := e.1, payload := e.2 })

/-- Modelled from the spec: the Dispatcher drain of an invocation and its
Emission Context (§4.1, §4.5) — no Dispatcher exists under the repository
sources.  Ad-hoc events (`get_triggers`) are dispatched regardless of the
outcome; declared payloads (`get_all_auto_trigger_payloads`) are emitted
only when the invocation succeeded, and a timeout counts as failure for
emission purposes. -/
def dispatchedEmissions (s : State) (outcome : InvocationOutcome) : List TriggeredEvent :=
  match outcome with
  | .succeeded => s.get_triggers ++ declaredEventsOf s
  | .failed => s.get_triggers
  | .timed_out => s.get_triggers

/-! ### Events and cascades (spec-modelled) -/

/-- Modelled from the spec: the Event data type (§3) — no Event type with
correlation identifiers exists under the repository sources (the generated
`TriggeredEvent` carries only a name and payload). -/
structure Event where
  name : String
  payload : Payload
  correlation_id : String
  causation_id : Option String
  deriving DecidableEq, Repr

/-- Modelled from the spec: wrapping an emission `(name, payload)` produced
while handling `parent` into a downstream Event — `correlation_id` is
propagated unchanged, `causation_id` points at the producing event (§4.3
step 1). -/
def childEvent (parent : Event) (name : String) (payload : Payload) : Event :=
  { name := name
    payload := payload
    correlation_id := parent.correlation_id
    causation_id := some parent.name }

/-- The emission behaviour of a subscriber, abstracted as the list of
`(name, payload)` emissions its invocation produces for a given event. -/
abbrev EmissionFun : Type := Event → List (String × Payload)

/-- Modelled from the spec: the Dispatcher cascade (§4.3) restricted to
what C2 needs — the set of events appearing anywhere in the cascade.
`subs` gives the subscribers of an event name (the Router); `fuel` bounds
the recursion depth. -/
def cascadeEvents (subs : String → List EmissionFun) : Nat → Event → List Event
  | 0, ev => [ev]
  | fuel + 1, ev =>
      let ems := (subs ev.name).flatMap (fun hf => hf ev)
      ev :: ems.flatMap (fun e => cascadeEvents subs fuel (childEvent ev e.1 e.2))

/-- One branch's outcome in a depth-bounded cascade: the events actually
dispatched (with the fan-out depth at which each was dispatched) and the
events whose branch failed with `CascadeDepthExceeded`. -/
structure CascadeOutput where
  dispatched : List (Event × Nat)
  exceeded : List Event
  deriving DecidableEq, Repr

/-- Modelled from the spec: the depth-bounded Dispatcher recursion (§4.3
steps 4–5) — no Dispatcher exists under the repository sources.  `depth`
is the fan-out depth counter; a branch whose depth exceeds `maxDepth`
fails alone with a `CascadeDepthExceeded` condition (collected in
`exceeded`) and is not dispatched; the function is total, so the process
never crashes.  `fuel` is structural-recursion fuel; callers pass
`fuel = maxDepth + 1 - depth`, under which the fuel-exhaustion branch
coincides with the depth check. -/
def runCascadeF (subs : String → List EmissionFun) (maxDepth : Nat) :
    Nat → Nat → Event → CascadeOutput
  | _depth, 0, ev =>
      { dispatched := [], exceeded := [ev] }
  | depth, fuel + 1, ev =>
      if depth > maxDepth then
        { dispatched := [], exceeded := [ev] }
      else
        let ems := (subs ev.name).flatMap (fun hf => hf ev)
        let results := ems.map (fun e => runCascadeF subs maxDepth (depth + 1) fuel (childEvent ev e.1 e.2))
        { dispatched := (ev, depth) :: (results.map CascadeOutput.dispatched).flatten
          exceeded := (results.map CascadeOutput.exceeded).flatten }

/-- Modelled from the spec: run a full cascade from an external trigger
event at depth 0 under the configured maximum depth. -/
def runCascade (subs : String → List EmissionFun) (maxDepth : Nat) (ev : Event) : CascadeOutput :=
  runCascadeF subs maxDepth 0 (maxDepth + 1) ev

/-! ### Handler registry and startup validation (spec-modelled) -/

/-- Trigger kinds, from spec §3 (Handler Registration). -/
inductive TriggerKind where
  | api : TriggerKind
  | cron : TriggerKind
  | event : TriggerKind
  | websocket_connect : TriggerKind
  | websocket_disconnect : TriggerKind
  | websocket_message : TriggerKind
  deriving DecidableEq, Repr

/-- Modelled from the spec: a Handler Registration (§3) — no registry
exists under the repository sources.  `subscribes_to` is populated only
for event-kind handlers; `declares` is the set of event names the handler
may auto-emit. -/
structure Registration where
  id : String
  trigger_kind : TriggerKind
  subscribes_to : Option String
  declares : List String
  deriving DecidableEq, Repr

/-- Whether some registration in the registry declares it may emit
event name `n`. -/
def hasDeclaredEmitter (regs : List Registration) (n : String) : Bool :=
  regs.any (fun r => r.declares.contains n)

/-- Modelled from the spec: startup routing validation (§3 invariant, §7
`RoutingMisconfiguration`) — the subscription of every event-kind handler must
name an event that some registration declares it may emit. -/
def validateRegistry (regs : List Registration) : Bool :=
  regs.all (fun r =>
    match r.trigger_kind, r.subscribes_to with
    | .event, some n => hasDeclaredEmitter regs n
    | _, _ => true)

/-- Modelled from the spec: a failed validation is fatal to process start
(§7: `RoutingMisconfiguration` is detected at startup and fatal, not a
runtime error) — dispatch only ever runs in a started process. -/
def processStarts (regs : List Registration) : Bool :=
  validateRegistry regs

/-! ### Logging world

The Python `log_fn` callback is an external sink; we model its observable
effect as a list of `LogRecord`s accumulated next to the `State`. -/

/-- The records `Logger._log_fn(level, handler_name, message, kwargs)`
sends to the sink for one call: one record when a callback is installed,
none otherwise (`if self._log_fn:` is false for `None`). -/
def Logger.call (lg : Logger) (level : String) (message : String) (fields : Payload) : List LogRecord :=
  if lg.has_log_fn then
    [{ level := level, handler_name := lg.handler_name, message := message, fields := fields }]
  else
    []

/-- The observable world of a handler: its emission context plus the log sink. -/
structure World where
  state : State
  log_sink : List LogRecord
  deriving DecidableEq, Repr

/-- `Logger.info`: log at level `"info"`. -/
def World.log_info (w : World) (message : String) (fields : Payload) : World :=
  { w with log_sink := w.log_sink ++ w.state.logger.call "info" message fields }

/-- `Logger.error`: log at level `"error"`. -/
def World.log_error (w : World) (message : String) (fields : Payload) : World :=
  { w with log_sink := w.log_sink ++ w.state.logger.call "error" message fields }

/-- `Logger.warning`: log at level `"warn"` (the source maps `warning` to
the `"warn"` level string). -/
def World.log_warning (w : World) (message : String) (fields : Payload) : World :=
  { w with log_sink := w.log_sink ++ w.state.logger.call "warn" message fields }

/-- `Logger.warn`: alias for `Logger.warning`. -/
def World.log_warn (w : World) (message : String) (fields : Payload) : World :=
  w.log_warning message fields

/-- `Logger.debug`: log at level `"debug"`. -/
def World.log_debug (w : World) (message : String) (fields : Payload) : World :=
  { w with log_sink := w.log_sink ++ w.state.logger.call "debug" message fields }

/-- `Logger.trace`: log at level `"trace"`. -/
def World.log_trace (w : World) (message : String) (fields : Payload) : World :=
  { w with log_sink := w.log_sink ++ w.state.logger.call "trace" message fields }

/-! ### The payment-status event handler -/

/-- Python `dict.get(k)` as used in handler code: the stored value, or
`None` when the key is absent. -/
def pyGet (d : Payload) (k : String) : PyVal :=
  (dictGet d k).getD PyVal.vnone

/-- Python `str()` of a payload value, for f-string interpolation. -/
def pyValStr : PyVal → String
  | .vnone => "None"
  | .vstr s => s
  | .vint n => toString n
  | .vbool b => if b then "True" else "False"
  | .vfloat s => s

/-- `handle_update_order_payment_status` from
`src/examples/ecommerce-order-system/src/handlers/events/update_order_payment_status.py`:
reads `orderId` and `paymentId` from the event payload, logs, sleeps
(pure delay, no state effect), and ad-hoc-triggers `OrderStatusUpdated`
with status `paid`. -/
def handle_update_order_payment_status (event_payload : Payload) (w : World) : World :=
  let order_id := pyGet event_payload "orderId"
  let payment_id := pyGet event_payload "paymentId"
  let w1 := w.log_info
    ("Updating order " ++ pyValStr order_id ++ " payment status with payment " ++ pyValStr payment_id)
    []
  { w1 with state := (w1.state.trigger_event "OrderStatusUpdated"
      [("orderId", order_id), ("status", PyVal.vstr "paid"), ("paymentId", payment_id)]) }

/-! ### `sanitize_sql_value` from `rohas_orm/utils.py` -/

/-- A Python value as passed to `sanitize_sql_value`.  `pfloat` and
`pother` carry the string that Python `str()` would print for them, the only
operation the function applies to them. -/
inductive SqlVal where
  | pnone : SqlVal
  | pstr : String → SqlVal
  | pint : Int → SqlVal
  | pbool : Bool → SqlVal
  | pfloat : String → SqlVal
  | pother : String → SqlVal
  deriving DecidableEq, Repr

/-- Python `isinstance(value, str)`. -/
def pyIsStr : SqlVal → Bool
  | .pstr _ => true
  | _ => false

/-- Python `isinstance(value, (int, float))`.  `bool` is a subclass of
`int` in Python, so booleans satisfy this test. -/
def pyIsNum : SqlVal → Bool
  | .pint _ => true
  | .pfloat _ => true
  | .pbool _ => true
  | _ => false

/-- Python `isinstance(value, bool)`. -/
def pyIsBool : SqlVal → Bool
  | .pbool _ => true
  | _ => false

/-- Python `str()` of a `SqlVal`. -/
def sqlValStr : SqlVal → String
  | .pnone => "None"
  | .pstr s => s
  | .pint n => toString n
  | .pbool b => if b then "True" else "False"
  | .pfloat s => s
  | .pother s => s

/-- The ASCII single-quote character, as a string. -/
def squote : String := String.singleton (Char.ofNat 39)

/-- `value.replace(squote, squote squote)`: double every embedded single
quote. -/
def sqEscape (s : String) : String := s.replace squote (squote ++ squote)

/-- `sanitize_sql_value` from `rohas_orm/utils.py`, with the Python branch
order: `None`, then `str`, then `(int, float)`, then `bool`, else
fallback. -/
def sanitize_sql_value (v : SqlVal) : String :=
  if v = .pnone then "NULL"
  else if pyIsStr v then squote ++ sqEscape (sqlValStr v) ++ squote
  else if pyIsNum v then sqlValStr v
  else if pyIsBool v then (if v = .pbool true then "1" else "0")
  else squote ++ sqEscape (sqlValStr v) ++ squote

/-- Which branch of `sanitize_sql_value` fires for a value (same guard
structure as the function). -/
inductive SanBranch where
  | nullBranch : SanBranch
  | strBranch : SanBranch
  | numBranch : SanBranch
  | boolBranch : SanBranch
  | otherBranch : SanBranch
  deriving DecidableEq, Repr

/-- The branch `sanitize_sql_value` takes, with the same guards in the
same order. -/
def sanitizeBranch (v : SqlVal) : SanBranch :=
  if v = .pnone then .nullBranch
  else if pyIsStr v then .strBranch
  else if pyIsNum v then .numBranch
  else if pyIsBool v then .boolBranch
  else .otherBranch

/-! ### Heap model for reader isolation

`State.get_triggers` and `State.get_all_auto_trigger_payloads` return
`.copy()`s of the underlying containers.  To state that mutating the
returned container cannot affect the `State`, we model the Python heap
explicitly: cells addressed by `Nat`, with the `State` holding references
to its two private containers. -/

/-- A heap cell: a Python list of `TriggeredEvent`s or a Python dict of
payloads. -/
inductive Cell where
  | trigList : List TriggeredEvent → Cell
  | payloadDict : List (String × Payload) → Cell
  deriving DecidableEq, Repr

/-- The heap: cells addressed by allocation order. -/
abbrev Heap : Type := List Cell

/-- Allocate a fresh cell, returning the new heap and the fresh address. -/
def halloc (h : Heap) (c : Cell) : Heap × Nat :=
  (h ++ [c], h.length)

/-- Read the cell at an address. -/
def hread (h : Heap) (r : Nat) : Option Cell :=
  h[r]?

/-- Overwrite the cell at an address (in-place mutation of a Python
container). -/
def hwrite (h : Heap) (r : Nat) (c : Cell) : Heap :=
  h.set r c

/-- `State` as it lives on the heap: references to `_triggers` and
`_auto_trigger_payloads`. -/
structure StateRef where
  triggersRef : Nat
  autoRef : Nat
  deriving DecidableEq, Repr

/-- `State.__init__` on the heap: allocate a fresh empty list and a fresh
empty dict. -/
def stateNew (h : Heap) : Heap × StateRef :=
  let p1 := halloc h (Cell.trigList [])
  let p2 := halloc p1.1 (Cell.payloadDict [])
  (p2.1, { triggersRef := p1.2, autoRef := p2.2 })

/-- `State.get_triggers` on the heap: `self._triggers.copy()` — allocate a
fresh list cell with the same contents and return its address.  (The
default branch is unreachable for well-formed states.) -/
def getTriggersH (h : Heap) (s : StateRef) : Heap × Nat :=
  match hread h s.triggersRef with
  | some (Cell.trigList l) => halloc h (Cell.trigList l)
  | _ => halloc h (Cell.trigList [])

/-- `State.get_all_auto_trigger_payloads` on the heap:
`self._auto_trigger_payloads.copy()`. -/
def getAllAutoH (h : Heap) (s : StateRef) : Heap × Nat :=
  match hread h s.autoRef with
  | some (Cell.payloadDict d) => halloc h (Cell.payloadDict d)
  | _ => halloc h (Cell.payloadDict [])

/-! ### Concrete cascade fixtures -/

/-- A cyclic subscriber table: every `Loop` event has one subscriber that
re-emits `Loop` (the cycle) and also emits an unrelated `Side` event;
`Side` has no subscribers. -/
def cyclicSubs : String → List EmissionFun :=
  fun n => if n = "Loop" then [fun _ => [("Loop", []), ("Side", [])]] else []

/-- The external trigger event starting the cyclic cascade. -/
def loopRoot : Event :=
  { name := "Loop", payload := [], correlation_id := "c", causation_id := none }

/-- The event names of a key list in order of first occurrence (the
insertion order a Python dict built by repeated assignment exhibits). -/
def firstOccurrences (ks : List String) : List String :=
  ks.foldl (fun acc k => if acc.any (fun x => x == k) then acc else acc ++ [k]) []

/-! ## Theorems -/

/-- C1: ad-hoc/declared emission asymmetry.  For the emission context of
every invocation, a failed or timed-out invocation dispatches exactly the
ad-hoc emissions recorded via `trigger_event` (so each of them is
dispatched even though the invocation failed), and the payloads buffered
via `set_payload` are emitted — appended after the ad-hoc emissions —
exactly when the invocation succeeds, and are discarded otherwise. -/
theorem C1_adhoc_declared_emission_asymmetry (s : State) :
    dispatchedEmissions s InvocationOutcome.failed = s.get_triggers ∧
    dispatchedEmissions s InvocationOutcome.timed_out = s.get_triggers ∧
    dispatchedEmissions s InvocationOutcome.succeeded = s.get_triggers ++ declaredEventsOf s :=
  ⟨rfl, rfl, rfl⟩

/-- C7: the payment-status handler records exactly one ad-hoc emission,
named `OrderStatusUpdated` with status `paid` and the `orderId` and
`paymentId` taken from the event payload, regardless of prior state;
delivering the same event twice appends two identical such emissions
(paid then paid again). -/
theorem C7_payment_status_duplicate_delivery (ev : Payload) (w : World) :
    (handle_update_order_payment_status ev w).state.get_triggers
        = w.state.get_triggers ++
          [{ event_name := "OrderStatusUpdated",
             payload := [("orderId", pyGet ev "orderId"), ("status", PyVal.vstr "paid"),
                         ("paymentId", pyGet ev "paymentId")] }] ∧
    (handle_update_order_payment_status ev (handle_update_order_payment_status ev w)).state.get_triggers
        = w.state.get_triggers ++
          [{ event_name := "OrderStatusUpdated",
             payload := [("orderId", pyGet ev "orderId"), ("status", PyVal.vstr "paid"),
                         ("paymentId", pyGet ev "paymentId")] },
           { event_name := "OrderStatusUpdated",
             payload := [("orderId", pyGet ev "orderId"), ("status", PyVal.vstr "paid"),
                         ("paymentId", pyGet ev "paymentId")] }] ∧
    dictGet [("orderId", pyGet ev "orderId"), ("status", PyVal.vstr "paid"),
             ("paymentId", pyGet ev "paymentId")] "status"
        = some (PyVal.vstr "paid") := by
  refine ⟨rfl, ?_, by simp [dictGet]⟩
  simp [handle_update_order_payment_status, World.log_info, State.trigger_event,
    State.get_triggers]

/-- C8: the logger is side-effect-only with respect to dispatch.  Every
leveled method leaves the emission context unchanged (in particular the
recorded ad-hoc triggers and the buffered declared payloads), and with a
null log sink every logger call is a complete no-op. -/
theorem C8_logger_side_effect_only (w : World) (message : String) (fields : Payload) :
    ((w.log_info message fields).state = w.state ∧
     (w.log_error message fields).state = w.state ∧
     (w.log_warning message fields).state = w.state ∧
     (w.log_warn message fields).state = w.state ∧
     (w.log_debug message fields).state = w.state ∧
     (w.log_trace message fields).state = w.state) ∧
    ((w.log_info message fields).state.get_triggers = w.state.get_triggers ∧
     (w.log_info message fields).state.get_all_auto_trigger_payloads
        = w.state.get_all_auto_trigger_payloads) ∧
    (w.state.logger.has_log_fn = false →
      w.log_info message fields = w ∧
      w.log_error message fields = w ∧
      w.log_warning message fields = w ∧
      w.log_warn message fields = w ∧
      w.log_debug message fields = w ∧
      w.log_trace message fields = w) := by
  refine ⟨⟨rfl, rfl, rfl, rfl, rfl, rfl⟩, ⟨rfl, rfl⟩, fun h => ?_⟩
  simp [World.log_info, World.log_error, World.log_warning, World.log_warn,
    World.log_debug, World.log_trace, Logger.call, h]

/-- Witness for C8 at a concrete world with a null log sink. -/
theorem C8_logger_side_effect_only_witness :
    (World.mk (State.new "handler" false) []).state.logger.has_log_fn = false ∧
    (World.mk (State.new "handler" false) []).log_info "m" []
        = World.mk (State.new "handler" false) [] := by
  refine ⟨rfl, ?_⟩
  exact ((C8_logger_side_effect_only (World.mk (State.new "handler" false) []) "m" []).2.2 rfl).1

/-- Helper: `find?` distributes over append through `Option.or`. -/
theorem find_over_append {α : Type} (p : α → Bool) (l1 l2 : List α) :
    (l1 ++ l2).find? p = (l1.find? p).or (l2.find? p) :=
  List.find?_append

/-- Helper: `find?` on a cons whose head satisfies the test. -/
theorem find_cons_true {α : Type} (p : α → Bool) (a : α) (l : List α) (h : p a = true) :
    (a :: l).find? p = some a := by
  simp [List.find?, h]

/-- Helper: `find?` on a cons whose head fails the test. -/
theorem find_cons_false {α : Type} (p : α → Bool) (a : α) (l : List α) (h : p a = false) :
    (a :: l).find? p = l.find? p := by
  simp [List.find?, h]

/-- Helper: `any` over a mapped list tests the composite. -/
theorem any_over_map {α β : Type} (f : α → β) (p : β → Bool) (l : List α) :
    (l.map f).any p = l.any (fun a => p (f a)) := by
  induction l with
  | nil => rfl
  | cons a l ih => simp [List.any_cons, ih]

/-- Helper: turn a negated `any` into `any = false`. -/
theorem any_false_of_not {α : Type} (p : α → Bool) (l : List α) (h : ¬ l.any p = true) :
    l.any p = false := by
  cases hh : l.any p
  · rfl
  · exact absurd hh h

/-- Helper: replacing every `k`-keyed entry by `(k, v)` makes lookup of
`k` return `(k, v)` exactly when some `k`-keyed entry was present. -/
theorem find_map_update_self {α : Type} (d : List (String × α)) (k : String) (v : α) :
    (d.map (fun e => if e.1 == k then (k, v) else e)).find? (fun e => e.1 == k)
      = (d.find? (fun e => e.1 == k)).map (fun _ => (k, v)) := by
  induction d with
  | nil => rfl
  | cons a d ih =>
    by_cases ha : (a.1 == k) = true
    · rw [List.map_cons, if_pos ha]
      rw [find_cons_true (fun e => e.1 == k) ((k, v)) _ (by simp)]
      rw [find_cons_true (fun e => e.1 == k) a _ ha]
      rfl
    · have ha' : (a.1 == k) = false := by simpa using ha
      rw [List.map_cons, if_neg (by simp [ha'])]
      rw [find_cons_false (fun e => e.1 == k) a _ ha',
        find_cons_false (fun e => e.1 == k) a _ ha']
      exact ih

/-- Helper: replacing every `k`-keyed entry by `(k, v)` does not change
lookups of other keys. -/
theorem find_map_update_other {α : Type} (d : List (String × α)) (k k' : String) (v : α)
    (hne : k' ≠ k) :
    (d.map (fun e => if e.1 == k then (k, v) else e)).find? (fun e => e.1 == k')
      = d.find? (fun e => e.1 == k') := by
  induction d with
  | nil => rfl
  | cons a d ih =>
    by_cases ha : (a.1 == k) = true
    · have hk : a.1 = k := by simpa using ha
      rw [List.map_cons, if_pos ha]
      rw [find_cons_false (fun e => e.1 == k') ((k, v)) _ (by simp [Ne.symm hne])]
      rw [find_cons_false (fun e => e.1 == k') a _ (by simp [hk, Ne.symm hne])]
      exact ih
    · have ha' : (a.1 == k) = false := by simpa using ha
      rw [List.map_cons, if_neg (by simp [ha'])]
      by_cases hak : (a.1 == k') = true
      · rw [find_cons_true (fun e => e.1 == k') a _ hak,
          find_cons_true (fun e => e.1 == k') a _ hak]
      · have hak' : (a.1 == k') = false := by simpa using hak
        rw [find_cons_false (fun e => e.1 == k') a _ hak',
          find_cons_false (fun e => e.1 == k') a _ hak']
        exact ih

/-- Helper: after `d[k] = v`, looking up `k` finds `v`. -/
theorem dictAssign_find_self {α : Type} (d : List (String × α)) (k : String) (v : α) :
    (dictAssign d k v).find? (fun e => e.1 == k) = some (k, v) := by
  unfold dictAssign
  by_cases h : d.any (fun e => e.1 == k)
  · rw [if_pos h, find_map_update_self]
    obtain ⟨x, hx⟩ : ∃ x, d.find? (fun e => e.1 == k) = some x := by
      cases hf : d.find? (fun e => e.1 == k) with
      | some x => exact ⟨x, rfl⟩
      | none =>
        rw [List.find?_eq_none] at hf
        rw [List.any_eq_true] at h
        obtain ⟨e, he, hek⟩ := h
        exact absurd hek (hf e he)
    rw [hx]
    rfl
  · rw [if_neg h, find_over_append]
    have hnone : d.find? (fun e => e.1 == k) = none :=
      List.find?_eq_none.mpr (List.any_eq_false.mp (any_false_of_not _ _ h))
    rw [hnone]
    rw [find_cons_true (fun e => e.1 == k) ((k, v)) _ (by simp)]
    rfl

/-- Helper: `d[k] = v` does not change lookups of other keys. -/
theorem dictAssign_find_other {α : Type} (d : List (String × α)) (k k' : String) (v : α)
    (hne : k' ≠ k) :
    (dictAssign d k v).find? (fun e => e.1 == k') = d.find? (fun e => e.1 == k') := by
  unfold dictAssign
  by_cases h : d.any (fun e => e.1 == k)
  · rw [if_pos h]
    exact find_map_update_other _ _ _ _ hne
  · rw [if_neg h, find_over_append]
    have hone : ([(k, v)].find? (fun e => e.1 == k')) = none := by
      rw [find_cons_false (fun e => e.1 == k') ((k, v)) _ (by simp [Ne.symm hne])]
      rfl
    rw [hone, Option.or_none]

/-- Helper: `set_payload` is a point update of `get_auto_trigger_payload`. -/
theorem set_payload_lookup (s : State) (k k' : String) (v : Payload) :
    (s.set_payload k v).get_auto_trigger_payload k'
      = if k' = k then some v else s.get_auto_trigger_payload k' := by
  by_cases h : k' = k
  · subst h
    simp [State.set_payload, State.get_auto_trigger_payload, dictAssign_find_self]
  · rw [if_neg h]
    simp [State.set_payload, State.get_auto_trigger_payload, dictAssign_find_other _ _ _ _ h]

/-- Helper: a sequence of `set_payload` calls realises last-write-wins
lookup, falling back to the entry of the starting state. -/
theorem applySetPayloads_lookup (calls : List (String × Payload)) (s : State) (n : String) :
    (s.applySetPayloads calls).get_auto_trigger_payload n
      = ((calls.reverse.find? (fun c => c.1 == n)).map Prod.snd).or
          (s.get_auto_trigger_payload n) := by
  induction calls generalizing s with
  | nil => simp [State.applySetPayloads]
  | cons c rest ih =>
    have hstep : (s.applySetPayloads (c :: rest))
        = (s.set_payload c.1 c.2).applySetPayloads rest := rfl
    rw [hstep, ih]
    rw [List.reverse_cons, find_over_append]
    cases hfind : rest.reverse.find? (fun c => c.1 == n) with
    | some x => rfl
    | none =>
      rw [set_payload_lookup]
      by_cases h : n = c.1
      · rw [if_pos h]
        rw [find_cons_true (fun c => c.1 == n) c [] (by simp [h])]
        rfl
      · rw [if_neg h]
        have hc : (c.1 == n) = false := beq_eq_false_iff_ne.mpr (fun hh => h hh.symm)
        rw [find_cons_false (fun c => c.1 == n) c [] hc]
        rfl

/-- Helper: the keys of `d[k] = v`. -/
theorem dictAssign_keys {α : Type} (d : List (String × α)) (k : String) (v : α) :
    (dictAssign d k v).map Prod.fst
      = if d.any (fun e => e.1 == k) then d.map Prod.fst else d.map Prod.fst ++ [k] := by
  unfold dictAssign
  by_cases h : d.any (fun e => e.1 == k)
  · rw [if_pos h, if_pos h, List.map_map]
    apply List.map_congr_left
    intro e he
    by_cases hek : (e.1 == k) = true
    · have hk : e.1 = k := by simpa using hek
      simp [Function.comp, hek, hk]
    · have hek' : (e.1 == k) = false := by simpa using hek
      simp [Function.comp, hek']
  · rw [if_neg h, if_neg h]
    simp

/-- Helper: `dictAssign` preserves distinctness of keys. -/
theorem dictAssign_keys_nodup {α : Type} (d : List (String × α)) (k : String) (v : α)
    (hd : (d.map Prod.fst).Nodup) : ((dictAssign d k v).map Prod.fst).Nodup := by
  rw [dictAssign_keys]
  by_cases h : d.any (fun e => e.1 == k)
  · rwa [if_pos h]
  · rw [if_neg h]
    rw [List.nodup_append]
    refine ⟨hd, List.nodup_singleton k, ?_⟩
    intro x hx hk
    simp only [List.mem_singleton] at hk
    subst hk
    simp only [List.mem_map] at hx
    obtain ⟨e, he, hek⟩ := hx
    have h' := List.any_eq_false.mp (any_false_of_not _ _ h)
    exact h' e he (by simp [hek])

/-- Helper: at most one buffered payload per name, for any run of
`set_payload` calls from a state whose buffer already has distinct keys. -/
theorem applySetPayloads_keys_nodup (calls : List (String × Payload)) (s : State)
    (hs : (s.auto_trigger_payloads.map Prod.fst).Nodup) :
    (((s.applySetPayloads calls).auto_trigger_payloads).map Prod.fst).Nodup := by
  induction calls generalizing s with
  | nil => exact hs
  | cons c rest ih =>
    have hstep : (s.applySetPayloads (c :: rest))
        = (s.set_payload c.1 c.2).applySetPayloads rest := rfl
    rw [hstep]
    exact ih _ (dictAssign_keys_nodup _ _ _ hs)

/-- C3: last-write-wins for declared payloads.  From a fresh emission
context, a sequence of `set_payload` calls leaves at most one payload per
event name, and `get_auto_trigger_payload n` returns exactly the payload
of the most recent call with name `n` (`none` if there was none); each
`trigger_event` call with the same name, by contrast, appends an
independent event. -/
theorem C3_last_write_wins (hn : String) (lf : Bool) (calls : List (String × Payload))
    (n : String) (s : State) (p : Payload) :
    ((State.new hn lf).applySetPayloads calls).get_auto_trigger_payload n
        = (calls.reverse.find? (fun c => c.1 == n)).map Prod.snd ∧
    ((((State.new hn lf).applySetPayloads calls).get_all_auto_trigger_payloads).map Prod.fst).Nodup ∧
    (s.trigger_event n p).get_triggers
        = s.get_triggers ++ [{ event_name := n, payload := p }] := by
  refine ⟨?_, ?_, rfl⟩
  · rw [applySetPayloads_lookup]
    simp [State.new, State.get_auto_trigger_payload]
  · exact applySetPayloads_keys_nodup calls (State.new hn lf) (by simp [State.new])

/-- Helper: `trigger_event` calls accumulate in call order. -/
theorem applyTriggerEvents_get (calls : List (String × Payload)) (s : State) :
    (s.applyTriggerEvents calls).get_triggers
      = s.get_triggers ++ calls.map (fun c => { event_name := c.1, payload := c.2 }) := by
  induction calls generalizing s with
  | nil => simp [State.applyTriggerEvents, State.get_triggers]
  | cons c rest ih =>
    have hstep : (s.applyTriggerEvents (c :: rest))
        = (s.trigger_event c.1 c.2).applyTriggerEvents rest := rfl
    rw [hstep, ih]
    simp [State.trigger_event, State.get_triggers]

/-- Helper: the key order of the buffered payload dict under a run of
`set_payload` calls is first-occurrence insertion order. -/
theorem applySetPayloads_keys (calls : List (String × Payload)) (s : State) :
    ((s.applySetPayloads calls).auto_trigger_payloads).map Prod.fst
      = calls.foldl
          (fun acc c => if acc.any (fun x => x == c.1) then acc else acc ++ [c.1])
          (s.auto_trigger_payloads.map Prod.fst) := by
  induction calls generalizing s with
  | nil => rfl
  | cons c rest ih =>
    have hstep : (s.applySetPayloads (c :: rest))
        = (s.set_payload c.1 c.2).applySetPayloads rest := rfl
    rw [hstep, ih, List.foldl_cons]
    congr 1
    have hsp : (s.set_payload c.1 c.2).auto_trigger_payloads
        = dictAssign s.auto_trigger_payloads c.1 c.2 := rfl
    have hc : ((s.auto_trigger_payloads.map Prod.fst).any fun x => x == c.1)
        = (s.auto_trigger_payloads.any fun e => e.1 == c.1) := by
      rw [any_over_map]
    rw [hsp, dictAssign_keys]
    simp only [hc]

/-- C4: emission ordering.  `get_triggers` returns the ad-hoc emissions
exactly in the order `trigger_event` was called, names and payloads
preserved, and the declared-payload buffer lists names in the insertion
order of the first `set_payload` call per name. -/
theorem C4_emission_ordering (hn : String) (lf : Bool)
    (tcalls pcalls : List (String × Payload)) :
    ((State.new hn lf).applyTriggerEvents tcalls).get_triggers
        = tcalls.map (fun c => { event_name := c.1, payload := c.2 }) ∧
    (((State.new hn lf).applySetPayloads pcalls).get_all_auto_trigger_payloads).map Prod.fst
        = firstOccurrences (pcalls.map Prod.fst) := by
  constructor
  · rw [applyTriggerEvents_get]
    simp [State.new, State.get_triggers]
  · show ((State.new hn lf).applySetPayloads pcalls).auto_trigger_payloads.map Prod.fst = _
    rw [applySetPayloads_keys]
    rw [firstOccurrences, List.foldl_map]
    rfl

/-- C2: correlation propagation.  Every event anywhere in a cascade —
whatever the subscriber functions and the recursion bound — carries the
correlation id of the originating external trigger, propagated unchanged
through every downstream emission. -/
theorem C2_correlation_propagation (subs : String → List EmissionFun) (fuel : Nat)
    (root e : Event) (he : e ∈ cascadeEvents subs fuel root) :
    e.correlation_id = root.correlation_id := by
  induction fuel generalizing root with
  | zero =>
    simp only [cascadeEvents, List.mem_singleton] at he
    rw [he]
  | succ fuel ih =>
    simp only [cascadeEvents, List.mem_cons, List.mem_flatMap] at he
    rcases he with he | ⟨c, _hc, hmem⟩
    · rw [he]
    · have h := ih (childEvent root c.1 c.2) hmem
      rw [h]
      rfl

/-- Witness for C2 at a concrete one-step cascade in the cyclic fixture. -/
theorem C2_correlation_propagation_witness :
    childEvent loopRoot "Loop" [] ∈ cascadeEvents cyclicSubs 1 loopRoot ∧
    (childEvent loopRoot "Loop" []).correlation_id = loopRoot.correlation_id :=
  ⟨by decide, C2_correlation_propagation cyclicSubs 1 loopRoot _ (by decide)⟩

/-- Helper: every event a depth-bounded cascade dispatches is dispatched
at depth at most the configured maximum. -/
theorem runCascadeF_depth_le (subs : String → List EmissionFun) (maxDepth : Nat) :
    ∀ (fuel depth : Nat) (ev : Event) (p : Event × Nat),
      p ∈ (runCascadeF subs maxDepth depth fuel ev).dispatched → p.2 ≤ maxDepth := by
  intro fuel
  induction fuel with
  | zero =>
    intro depth ev p hp
    simp [runCascadeF] at hp
  | succ fuel ih =>
    intro depth ev p hp
    by_cases h : depth > maxDepth
    · simp [runCascadeF, h] at hp
    · simp only [runCascadeF, if_neg h, List.mem_cons, List.mem_flatten, List.mem_map] at hp
      rcases hp with hp | ⟨l, ⟨o, ⟨c, _hc, ho⟩, hl⟩, hpl⟩
      · rw [hp]
        omega
      · subst hl
        subst ho
        exact ih (depth + 1) (childEvent ev c.1 c.2) p hpl

/-- C5: bounded cascade.  For every subscriber table, maximum depth, and
start event, no event is ever dispatched at a fan-out depth above the
maximum; and in the concrete cyclic fixture (a `Loop` event whose handler
re-emits `Loop` alongside an unrelated `Side` emission) the cascade halts
at the configured maximum, failing only the over-deep branch with a
`CascadeDepthExceeded` condition while the sibling `Side` branches are
still dispatched. -/
theorem C5_bounded_cascade :
    (∀ (subs : String → List EmissionFun) (maxDepth depth fuel : Nat) (ev : Event)
        (p : Event × Nat),
      p ∈ (runCascadeF subs maxDepth depth fuel ev).dispatched → p.2 ≤ maxDepth) ∧
    (runCascade cyclicSubs 2 loopRoot).dispatched.map (fun p => (p.1.name, p.2))
        = [("Loop", 0), ("Loop", 1), ("Loop", 2), ("Side", 2), ("Side", 1)] ∧
    (runCascade cyclicSubs 2 loopRoot).exceeded.map Event.name = ["Loop", "Side"] := by
  refine ⟨fun subs maxDepth depth fuel ev p hp => runCascadeF_depth_le subs maxDepth fuel depth ev p hp, by decide, by decide⟩

/-- Witness for C5 at the cyclic fixture: the root event is dispatched at
depth 0, within the bound. -/
theorem C5_bounded_cascade_witness :
    (loopRoot, 0) ∈ (runCascadeF cyclicSubs 2 0 3 loopRoot).dispatched ∧
    ((loopRoot, 0) : Event × Nat).2 ≤ 2 :=
  ⟨by decide, C5_bounded_cascade.1 cyclicSubs 2 0 3 loopRoot (loopRoot, 0) (by decide)⟩

/-- C6: startup routing validation.  A registry in which some event-kind
handler subscribes to an event name with zero declared emitters is
exactly a registry the startup validation rejects, and a rejected
registry never starts the process (so the misconfiguration cannot
surface during dispatch, which only runs in a started process). -/
theorem C6_startup_routing_validation (regs : List Registration) :
    (validateRegistry regs = false ↔
      ∃ r ∈ regs, r.trigger_kind = TriggerKind.event ∧
        ∃ n, r.subscribes_to = some n ∧ hasDeclaredEmitter regs n = false) ∧
    processStarts regs = validateRegistry regs := by
  refine ⟨?_, rfl⟩
  constructor
  · intro h
    have h2 : ¬ (regs.all fun r =>
        match r.trigger_kind, r.subscribes_to with
        | TriggerKind.event, some n => hasDeclaredEmitter regs n
        | _, _ => true) = true := by
      rw [show (regs.all fun r =>
        match r.trigger_kind, r.subscribes_to with
        | TriggerKind.event, some n => hasDeclaredEmitter regs n
        | _, _ => true) = validateRegistry regs from rfl, h]
      exact Bool.false_ne_true
    rw [List.all_eq_true] at h2
    push_neg at h2
    obtain ⟨r, hr, hfail⟩ := h2
    refine ⟨r, hr, ?_⟩
    rcases hk : r.trigger_kind with _ | _ | _ | _ | _ | _ <;>
      rcases hs : r.subscribes_to with _ | n <;>
      rw [hk, hs] at hfail <;>
      first
        | exact absurd rfl hfail
        | exact ⟨rfl, n, rfl, any_false_of_not _ _ hfail⟩
  · rintro ⟨r, hr, hkind, n, hsub, hnoemit⟩
    cases hv : validateRegistry regs with
    | false => rfl
    | true =>
      exfalso
      rw [show (validateRegistry regs) = (regs.all fun r =>
        match r.trigger_kind, r.subscribes_to with
        | TriggerKind.event, some n => hasDeclaredEmitter regs n
        | _, _ => true) from rfl, List.all_eq_true] at hv
      have hone := hv r hr
      rw [hkind, hsub] at hone
      have hone2 : hasDeclaredEmitter regs n = true := hone
      rw [hnoemit] at hone2
      exact Bool.false_ne_true hone2

/-- Witness for C6: a concrete registry whose only handler is event-kind
and subscribes to an event nothing declares is rejected and does not
start. -/
theorem C6_startup_routing_validation_witness :
    validateRegistry
        [{ id := "h1", trigger_kind := TriggerKind.event,
           subscribes_to := some "Ghost", declares := [] }] = false ∧
    processStarts
        [{ id := "h1", trigger_kind := TriggerKind.event,
           subscribes_to := some "Ghost", declares := [] }] = false := by
  have h := C6_startup_routing_validation
    [{ id := "h1", trigger_kind := TriggerKind.event,
       subscribes_to := some "Ghost", declares := [] }]
  have hbad := h.1.mpr
    ⟨{ id := "h1", trigger_kind := TriggerKind.event,
       subscribes_to := some "Ghost", declares := [] },
      by decide, rfl, "Ghost", rfl, by decide⟩
  exact ⟨hbad, by rw [h.2, hbad]⟩

/-- Helper: reading the freshly allocated address yields the new cell. -/
theorem hread_halloc_self (h : Heap) (c : Cell) : hread (h ++ [c]) h.length = some c :=
  List.getElem?_concat_length h c

/-- Helper: allocation does not disturb existing addresses. -/
theorem hread_halloc_old (h : Heap) (c : Cell) (r : Nat) (hr : r < h.length) :
    hread (h ++ [c]) r = hread h r :=
  List.getElem?_append_left hr

/-- Helper: a readable address is within the heap. -/
theorem hread_some_lt (h : Heap) (r : Nat) (c : Cell) (hc : hread h r = some c) :
    r < h.length := by
  by_contra hn
  push_neg at hn
  rw [hread, List.getElem?_eq_none hn] at hc
  exact Option.noConfusion hc

/-- Helper: writing one address leaves the others unchanged. -/
theorem hread_hwrite_ne (h : Heap) (r r' : Nat) (c : Cell) (hne : r ≠ r') :
    hread (hwrite h r c) r' = hread h r' :=
  List.getElem?_set_ne hne

/-- C9: reader isolation of the emission context.  `get_triggers` and
`get_all_auto_trigger_payloads` return fresh copies: the returned address
is distinct from the private containers of the state, the copy has the same
contents, the read itself leaves the cells of the state untouched, and any
mutation of the returned copy leaves both cells of the state — and
hence every later read of them — unchanged; and a freshly constructed
state has an empty trigger list and an empty payload dict. -/
theorem C9_reader_isolation (h : Heap) (s : StateRef) (l : List TriggeredEvent)
    (d : List (String × Payload))
    (ht : hread h s.triggersRef = some (Cell.trigList l))
    (hd : hread h s.autoRef = some (Cell.payloadDict d)) :
    ((getTriggersH h s).2 ≠ s.triggersRef ∧
     hread (getTriggersH h s).1 (getTriggersH h s).2 = some (Cell.trigList l) ∧
     hread (getTriggersH h s).1 s.triggersRef = some (Cell.trigList l) ∧
     hread (getTriggersH h s).1 s.autoRef = some (Cell.payloadDict d) ∧
     (∀ c : Cell,
       hread (hwrite (getTriggersH h s).1 (getTriggersH h s).2 c) s.triggersRef
           = some (Cell.trigList l) ∧
       hread (hwrite (getTriggersH h s).1 (getTriggersH h s).2 c) s.autoRef
           = some (Cell.payloadDict d))) ∧
    ((getAllAutoH h s).2 ≠ s.autoRef ∧
     hread (getAllAutoH h s).1 (getAllAutoH h s).2 = some (Cell.payloadDict d) ∧
     hread (getAllAutoH h s).1 s.triggersRef = some (Cell.trigList l) ∧
     hread (getAllAutoH h s).1 s.autoRef = some (Cell.payloadDict d) ∧
     (∀ c : Cell,
       hread (hwrite (getAllAutoH h s).1 (getAllAutoH h s).2 c) s.triggersRef
           = some (Cell.trigList l) ∧
       hread (hwrite (getAllAutoH h s).1 (getAllAutoH h s).2 c) s.autoRef
           = some (Cell.payloadDict d))) ∧
    (∀ h0 : Heap,
      hread (stateNew h0).1 (stateNew h0).2.triggersRef = some (Cell.trigList []) ∧
      hread (stateNew h0).1 (stateNew h0).2.autoRef = some (Cell.payloadDict [])) := by
  have htl : s.triggersRef < h.length := hread_some_lt h _ _ ht
  have hdl : s.autoRef < h.length := hread_some_lt h _ _ hd
  have hg : getTriggersH h s = (h ++ [Cell.trigList l], h.length) := by
    unfold getTriggersH
    rw [ht]
    rfl
  have ha : getAllAutoH h s = (h ++ [Cell.payloadDict d], h.length) := by
    unfold getAllAutoH
    rw [hd]
    rfl
  refine ⟨?_, ?_, ?_⟩
  · rw [hg]
    refine ⟨by omega, hread_halloc_self h _, ?_, ?_, fun c => ⟨?_, ?_⟩⟩
    · rw [hread_halloc_old h _ _ htl]
      exact ht
    · rw [hread_halloc_old h _ _ hdl]
      exact hd
    · rw [hread_hwrite_ne _ _ _ _ (by omega)]
      rw [hread_halloc_old h _ _ htl]
      exact ht
    · rw [hread_hwrite_ne _ _ _ _ (by omega)]
      rw [hread_halloc_old h _ _ hdl]
      exact hd
  · rw [ha]
    refine ⟨by omega, hread_halloc_self h _, ?_, ?_, fun c => ⟨?_, ?_⟩⟩
    · rw [hread_halloc_old h _ _ htl]
      exact ht
    · rw [hread_halloc_old h _ _ hdl]
      exact hd
    · rw [hread_hwrite_ne _ _ _ _ (by omega)]
      rw [hread_halloc_old h _ _ htl]
      exact ht
    · rw [hread_hwrite_ne _ _ _ _ (by omega)]
      rw [hread_halloc_old h _ _ hdl]
      exact hd
  · intro h0
    have hs : stateNew h0
        = (h0 ++ [Cell.trigList []] ++ [Cell.payloadDict []],
           { triggersRef := h0.length, autoRef := (h0 ++ [Cell.trigList []]).length }) := rfl
    rw [hs]
    constructor
    · rw [hread_halloc_old _ _ _ (by simp)]
      exact hread_halloc_self h0 _
    · exact hread_halloc_self (h0 ++ [Cell.trigList []]) _

/-- Witness for C9 at the two-cell heap produced by a fresh state. -/
theorem C9_reader_isolation_witness :
    hread [Cell.trigList [], Cell.payloadDict []]
        (StateRef.mk 0 1).triggersRef = some (Cell.trigList []) ∧
    hread [Cell.trigList [], Cell.payloadDict []]
        (StateRef.mk 0 1).autoRef = some (Cell.payloadDict []) ∧
    hread (getTriggersH [Cell.trigList [], Cell.payloadDict []] (StateRef.mk 0 1)).1
        (StateRef.mk 0 1).triggersRef = some (Cell.trigList []) := by
  refine ⟨rfl, rfl, ?_⟩
  exact (C9_reader_isolation [Cell.trigList [], Cell.payloadDict []]
    (StateRef.mk 0 1) [] [] rfl rfl).1.2.2.1

/-- C10: total behaviour of `sanitize_sql_value` — `NULL` for `None`,
single-quoted with doubled embedded quotes for strings, the decimal
string for ints and the `str()` form for floats; because Python `bool` is
a subclass of `int` and the numeric branch is tested first, booleans
yield `"True"`/`"False"` and the branch mapping booleans to `"1"`/`"0"`
is unreachable for every input. -/
theorem C10_sanitize_sql_value_total_behaviour :
    sanitize_sql_value SqlVal.pnone = "NULL" ∧
    (∀ s : String, sanitize_sql_value (SqlVal.pstr s) = squote ++ sqEscape s ++ squote) ∧
    (∀ n : Int, sanitize_sql_value (SqlVal.pint n) = toString n) ∧
    (∀ s : String, sanitize_sql_value (SqlVal.pfloat s) = s) ∧
    (∀ b : Bool, sanitize_sql_value (SqlVal.pbool b) = (if b then "True" else "False")) ∧
    (∀ b : Bool, sanitizeBranch (SqlVal.pbool b) = SanBranch.numBranch) ∧
    (∀ v : SqlVal, (sanitizeBranch v == SanBranch.boolBranch) = false) := by
  refine ⟨rfl, fun s => rfl, fun n => rfl, fun s => rfl, fun b => rfl, fun b => rfl, fun v => ?_⟩
  cases v <;> rfl

end Rohas
